import Mathlib

/-!
Shallow embedding of the statsd metric pipeline core:
* the activation engine of `MetricProducer`
  (src/statsd/src/metrics/MetricProducer.cpp),
* the `CountMetricProducer` aggregation and bucket rotation
  (CountMetricProducer.cpp),
* the per-receiver scheduling of `StatsPullerManager::OnAlarmFired`
  (StatsPullerManager.cpp).

External collaborators (the condition wizard, the sampling hash, the
dimension extractor) are modelled as oracles carried on the event: each
event records the outcome the collaborator would have produced for it.
Machine integers (`int64_t`) are modelled as `Int`; every division in the
embedded code has a non-negative dividend and positive divisor at its use
site, where C++ truncating division agrees with `Int` division.
-/

namespace Statsd

/-- Tri-state of a condition node (`ConditionState` in the source). -/
inductive ConditionState where
  | kFalse
  | kTrue
  | kUnknown
  | kNotEvaluated
deriving DecidableEq, Repr

/-- State of one metric activation (`ActivationState` in the source). -/
inductive ActivationState where
  | kNotActive
  | kActive
  | kActiveOnBoot
deriving DecidableEq, Repr

/-- One activation of a metric (`Activation` in the source): its current
state, the elapsed time it was last started, and its time-to-live. -/
structure Activation where
  state : ActivationState
  start_ns : Int
  ttl_ns : Int
deriving DecidableEq, Repr

/-- Per-activation body of the loop in
`MetricProducer::evaluateActiveStateLocked` (MetricProducer.cpp:188): an
`kActive` activation whose TTL has elapsed
(`elapsedTimestampNs > ttl_ns + start_ns`) is flipped to `kNotActive`. -/
def updateActivationOnEvent (elapsedTimestampNs : Int) (a : Activation) : Activation :=
  if a.state = ActivationState.kActive ∧ elapsedTimestampNs > a.ttl_ns + a.start_ns then
    { a with state := ActivationState.kNotActive }
  else
    a

/-- `MetricProducer::evaluateActiveStateLocked` (MetricProducer.cpp:188-200).
The map of activations is modelled as the list of its entries (the atom
matcher indices play no role in the function).  Returns the updated
activations and the computed `isActive`: true when the activation map is
empty, or when some activation is still `kActive` after the TTL update. -/
def evaluateActiveStateLocked (elapsedTimestampNs : Int) (acts : List Activation) :
    List Activation × Bool :=
  let acts' := acts.map (updateActivationOnEvent elapsedTimestampNs)
  (acts', acts.isEmpty || acts'.any (fun a => a.state = ActivationState.kActive))

/-- `MetricProducer::flushIfExpire` (MetricProducer.cpp:202-215) restricted
to its state change: when the metric is currently active, re-evaluate the
active state and record the (possibly flipped) `mIsActive` flag. -/
def flushIfExpire (mIsActive : Bool) (acts : List Activation) (elapsedTimestampNs : Int) :
    Bool × List Activation :=
  if ¬ mIsActive then
    (mIsActive, acts)
  else
    let r := evaluateActiveStateLocked elapsedTimestampNs acts
    (r.2, r.1)

/-- Reasons for a dump report, as used by
`MetricProducer::writeActiveMetricToProtoOutputStream`.  Only the three
reasons the function distinguishes are named; every other member of the
source enum behaves like `otherReason`. -/
inductive DumpReportReason where
  | deviceShutdown
  | terminationSignalReceived
  | statscompanionDied
  | otherReason
deriving DecidableEq, Repr

/-- Wire state of a persisted activation (`ActiveEventActivation::State`). -/
inductive ActiveEventActivationState where
  | ACTIVE
  | ACTIVATE_ON_BOOT
deriving DecidableEq, Repr

/-- Fields of one persisted `ActiveEventActivation` message; a `none`
component is a field the writer did not emit (a missing proto int64 reads
back as `0`, a missing state is treated as `ACTIVE` by the loader). -/
structure ActiveEventActivationRecord where
  remainingTtlNanos : Option Int
  state : Option ActiveEventActivationState
deriving DecidableEq, Repr

/-- Per-activation body of
`MetricProducer::writeActiveMetricToProtoOutputStream`
(MetricProducer.cpp:279-320): `kNotActive` activations and expired
`kActive` activations are skipped; a live `kActive` activation records its
remaining TTL `start_ns + ttl_ns - currentTimeNs` with state `ACTIVE`;
`kActiveOnBoot` depends on the dump reason. -/
def writeActivationRecord (currentTimeNs : Int) (reason : DumpReportReason)
    (a : Activation) : Option ActiveEventActivationRecord :=
  if a.state = ActivationState.kNotActive ∨
      (a.state = ActivationState.kActive ∧ a.start_ns + a.ttl_ns < currentTimeNs) then
    none
  else if a.state = ActivationState.kActive then
    some { remainingTtlNanos := some (a.start_ns + a.ttl_ns - currentTimeNs),
           state := some ActiveEventActivationState.ACTIVE }
  else if reason = DumpReportReason.deviceShutdown ∨
      reason = DumpReportReason.terminationSignalReceived then
    some { remainingTtlNanos := some a.ttl_ns,
           state := some ActiveEventActivationState.ACTIVE }
  else if reason = DumpReportReason.statscompanionDied then
    some { remainingTtlNanos := none,
           state := some ActiveEventActivationState.ACTIVATE_ON_BOOT }
  else
    some { remainingTtlNanos := none, state := none }

/-- Per-activation body of `MetricProducer::loadActiveMetricLocked`
(MetricProducer.cpp:251-277): a record without a state, or with state
`ACTIVE`, restarts the activation with
`start_ns = currentTimeNs + remaining_ttl_nanos - ttl_ns`; a record with
state `ACTIVATE_ON_BOOT` marks it `kActiveOnBoot`. -/
def loadActivation (currentTimeNs : Int) (rec : ActiveEventActivationRecord)
    (a : Activation) : Activation :=
  if rec.state = none ∨ rec.state = some ActiveEventActivationState.ACTIVE then
    { a with
      start_ns := currentTimeNs + rec.remainingTtlNanos.getD 0 - a.ttl_ns,
      state := ActivationState.kActive }
  else if rec.state = some ActiveEventActivationState.ACTIVATE_ON_BOOT then
    { a with state := ActivationState.kActiveOnBoot }
  else
    a

/-- Modelled from the spec: `StatsdStats::kDimensionKeySizeSoftLimit`
(the StatsdStats header is not among the sources); §4.1.2 fixes
`dimension_soft_limit = 500`. -/
def kDimensionKeySizeSoftLimit : Nat := 500

/-- One closed count bucket (`CountBucket` in CountMetricProducer.h,
mirrored from its uses in CountMetricProducer.cpp). -/
structure CountBucket where
  mBucketStartNs : Int
  mBucketEndNs : Int
  mCount : Int
  mConditionTrueNs : Int
deriving DecidableEq, Repr

/-- Upload threshold predicate of a count metric (`UploadThreshold` oneof,
the cases dispatched by `CountMetricProducer::countPassesThreshold`). -/
inductive UploadThreshold where
  | ltInt (v : Int)
  | gtInt (v : Int)
  | lteInt (v : Int)
  | gteInt (v : Int)
deriving DecidableEq, Repr

/-- `CountMetricProducer::countPassesThreshold`
(CountMetricProducer.cpp:419-437). -/
def countPassesThreshold (th : Option UploadThreshold) (count : Int) : Bool :=
  match th with
  | none => true
  | some (UploadThreshold.ltInt v) => count < v
  | some (UploadThreshold.gtInt v) => count > v
  | some (UploadThreshold.lteInt v) => count ≤ v
  | some (UploadThreshold.gteInt v) => count ≥ v

/-- First-occurrence lookup in an association list, modelling
`std::unordered_map::find` on the maps whose keys are dimension keys. -/
def lookupCount {K : Type} [DecidableEq K] : List (K × Int) → K → Option Int
  | [], _ => none
  | (k', v) :: rest, k => if k = k' then some v else lookupCount rest k

/-- Increment the value stored at a key, modelling `count++` on an
iterator obtained from `find` (the key is present at the call sites). -/
def bumpCount {K : Type} [DecidableEq K] : List (K × Int) → K → List (K × Int)
  | [], k => [(k, 1)]
  | (k', v) :: rest, k =>
      if k = k' then (k', v + 1) :: rest else (k', v) :: bumpCount rest k

/-- Append a closed bucket to the per-key past-bucket list, modelling
`mPastBuckets[counter.first].push_back(info)`. -/
def pastAppend {K : Type} [DecidableEq K] :
    List (K × List CountBucket) → K → CountBucket → List (K × List CountBucket)
  | [], k, b => [(k, [b])]
  | (k', bs) :: rest, k, b =>
      if k = k' then (k', bs ++ [b]) :: rest else (k', bs) :: pastAppend rest k b

/-- The state of a `CountMetricProducer` that its event-processing,
flushing and reporting code reads or writes.  The anomaly trackers (and
the `mCurrentFullCounters` they alone consume) are not modelled: the
embedded code paths are those of a producer with no anomaly trackers.
`mConditionTimer` is modelled from the spec as the accumulated
condition-true time the timer's rollover would return (§4.1.3); its
internal bookkeeping is not needed by any embedded path. -/
structure CountState (K : Type) where
  mIsActive : Bool
  mTimeBaseNs : Int
  mBucketSizeNs : Int
  mCurrentBucketStartTimeNs : Int
  mCurrentBucketNum : Int
  mCondition : ConditionState
  mConditionSliced : Bool
  mConditionTrackerIndex : Int
  mSlicedStateAtomsEmpty : Bool
  mCurrentSlicedCounter : List (K × Int)
  mPastBuckets : List (K × List CountBucket)
  mDimensionGuardrailHit : Bool
  mHasHitGuardrail : Bool
  mDimensionHardLimit : Nat
  mUploadThreshold : Option UploadThreshold
  mConditionTimer : Int
deriving DecidableEq, Repr

/-- A log event as seen by the producer.  The dimension key
(`filterValues` on `mDimensionsInWhat`), the sampling decision
(`passesSampleCheckLocked`) and the sliced-condition query
(`mWizard->query`) are performed by collaborators outside these sources;
the event carries their outcomes as oracles. -/
structure LogEvent (K : Type) where
  elapsedTimestampNs : Int
  key : K
  passesSampleCheck : Bool
  slicedConditionState : ConditionState
deriving DecidableEq, Repr

/-- Modelled from the spec: `MetricProducer::getCurrentBucketEndTimeNs`
(the MetricProducer header is not among the sources); buckets have fixed
length `mBucketSizeNs` and are numbered from `mTimeBaseNs` (§3), so the
current bucket ends at `mTimeBaseNs + (mCurrentBucketNum + 1) *
mBucketSizeNs`. -/
def getCurrentBucketEndTimeNs {K : Type} (s : CountState K) : Int :=
  s.mTimeBaseNs + (s.mCurrentBucketNum + 1) * s.mBucketSizeNs

/-- Modelled from the spec: `MetricProducer::getBucketNumFromEndTimeNs`
(header not among the sources); with buckets numbered from
`mTimeBaseNs`, the bucket that ends at `endNs` has number
`(endNs - mTimeBaseNs) / mBucketSizeNs - 1`. -/
def getBucketNumFromEndTimeNs {K : Type} (s : CountState K) (endNs : Int) : Int :=
  (endNs - s.mTimeBaseNs) / s.mBucketSizeNs - 1

/-- The `CountBucket` assembled at the top of
`CountMetricProducer::flushCurrentBucketLocked`
(CountMetricProducer.cpp:441-452): it starts at the current bucket start,
ends at `eventTimeNs` clamped to the full bucket end, and carries the
condition-true time returned by the condition timer rollover.  Its
`mCount` is filled per key afterwards. -/
def closedBucketInfo {K : Type} (s : CountState K) (eventTimeNs : Int) : CountBucket :=
  let fullBucketEndTimeNs := getCurrentBucketEndTimeNs s
  { mBucketStartNs := s.mCurrentBucketStartTimeNs,
    mBucketEndNs := if eventTimeNs < fullBucketEndTimeNs then eventTimeNs
                    else fullBucketEndTimeNs,
    mCount := 0,
    mConditionTrueNs := s.mConditionTimer }

/-- `CountMetricProducer::flushCurrentBucketLocked`
(CountMetricProducer.cpp:439-498): append the closed bucket to
`mPastBuckets` for every key whose count passes the upload threshold,
reset the sliced counter and the condition timer, move the bucket start
to `nextBucketStartTimeNs`, and reset `mHasHitGuardrail`. -/
def flushCurrentBucketLocked {K : Type} [DecidableEq K] (s : CountState K)
    (eventTimeNs nextBucketStartTimeNs : Int) : CountState K :=
  let info := closedBucketInfo s eventTimeNs
  let past := s.mCurrentSlicedCounter.foldl
    (fun pb kv =>
      if countPassesThreshold s.mUploadThreshold kv.2 then
        pastAppend pb kv.1 { info with mCount := kv.2 }
      else pb)
    s.mPastBuckets
  { s with
    mPastBuckets := past,
    mConditionTimer := 0,
    mCurrentSlicedCounter := [],
    mCurrentBucketStartTimeNs := nextBucketStartTimeNs,
    mHasHitGuardrail := false }

/-- `CountMetricProducer::flushIfNeededLocked`
(CountMetricProducer.cpp:403-417): a no-op when the event is before the
current bucket end; otherwise close the current bucket and advance the
bucket number by `1 + (eventTimeNs - currentBucketEndTimeNs) /
mBucketSizeNs`. -/
def flushIfNeededLocked {K : Type} [DecidableEq K] (s : CountState K)
    (eventTimeNs : Int) : CountState K :=
  let currentBucketEndTimeNs := getCurrentBucketEndTimeNs s
  if eventTimeNs < currentBucketEndTimeNs then
    s
  else
    let numBucketsForward := 1 + (eventTimeNs - currentBucketEndTimeNs) / s.mBucketSizeNs
    let nextBucketNs := currentBucketEndTimeNs + (numBucketsForward - 1) * s.mBucketSizeNs
    let s1 := flushCurrentBucketLocked s eventTimeNs nextBucketNs
    { s1 with mCurrentBucketNum := s1.mCurrentBucketNum + numBucketsForward }

/-- `CountMetricProducer::hitGuardRailLocked`
(CountMetricProducer.cpp:338-361): never drops a key that is already
present; a new key is dropped when the counter has reached the soft limit
and adding it would exceed the hard limit, in which case
`mHasHitGuardrail` and `mDimensionGuardrailHit` are set. -/
def hitGuardRailLocked {K : Type} [DecidableEq K] (s : CountState K) (newKey : K) :
    Bool × CountState K :=
  if (lookupCount s.mCurrentSlicedCounter newKey).isSome then
    (false, s)
  else if s.mCurrentSlicedCounter.length ≥ kDimensionKeySizeSoftLimit then
    if s.mCurrentSlicedCounter.length + 1 > s.mDimensionHardLimit then
      (true, { s with mHasHitGuardrail := true, mDimensionGuardrailHit := true })
    else
      (false, s)
  else
    (false, s)

/-- `CountMetricProducer::onMatchedLogEventInternalLocked`
(CountMetricProducer.cpp:363-399): rotate buckets, ignore the event if
the condition is not true, otherwise create the key with count 1 (unless
the guardrail drops it) or increment the existing count. -/
def onMatchedLogEventInternalLocked {K : Type} [DecidableEq K] (s : CountState K)
    (eventKey : K) (condition : Bool) (eventTimeNs : Int) : CountState K :=
  let s1 := flushIfNeededLocked s eventTimeNs
  if ¬ condition then
    s1
  else
    match lookupCount s1.mCurrentSlicedCounter eventKey with
    | none =>
        let g := hitGuardRailLocked s1 eventKey
        if g.1 then
          g.2
        else
          { g.2 with mCurrentSlicedCounter := g.2.mCurrentSlicedCounter ++ [(eventKey, 1)] }
    | some _ =>
        { s1 with mCurrentSlicedCounter := bumpCount s1.mCurrentSlicedCounter eventKey }

/-- The condition bit computed in
`MetricProducer::onMatchedLogEventLocked` (MetricProducer.cpp:131-144):
for a sliced condition, the wizard's answer (carried on the event) must
be `kTrue`; otherwise the cached `mCondition` must be `kTrue`. -/
def conditionForEvent {K : Type} (s : CountState K) (e : LogEvent K) : Bool :=
  if s.mConditionSliced then
    e.slicedConditionState = ConditionState.kTrue
  else
    s.mCondition = ConditionState.kTrue

/-- `MetricProducer::onMatchedLogEventLocked` (MetricProducer.cpp:117-186)
specialised to a count metric: drop inactive-metric events, events before
`mTimeBaseNs` and events failing the sample check; then compute the
condition bit and delegate to the variant. -/
def onMatchedLogEventLocked {K : Type} [DecidableEq K] (s : CountState K)
    (e : LogEvent K) : CountState K :=
  if ¬ s.mIsActive then
    s
  else if e.elapsedTimestampNs < s.mTimeBaseNs then
    s
  else if ¬ e.passesSampleCheck then
    s
  else
    onMatchedLogEventInternalLocked s e.key (conditionForEvent s e) e.elapsedTimestampNs

/-- `CountMetricProducer::dropDataLocked` (CountMetricProducer.cpp:320-324):
rotate buckets at the drop time, then discard all past buckets. -/
def dropDataLocked {K : Type} [DecidableEq K] (s : CountState K)
    (dropTimeNs : Int) : CountState K :=
  { flushIfNeededLocked s dropTimeNs with mPastBuckets := [] }

/-- Modelled from the spec: `MetricProducer::flushLocked` (header not
among the sources); a dump that includes the current partial bucket first
rotates any overdue buckets and then closes the current bucket at the
dump time, making it a partial bucket (§4.1.3, glossary), without
advancing the bucket number. -/
def flushLocked {K : Type} [DecidableEq K] (s : CountState K)
    (eventTimeNs : Int) : CountState K :=
  flushCurrentBucketLocked (flushIfNeededLocked s eventTimeNs) eventTimeNs eventTimeNs

/-- How one closed bucket identifies itself in the report: by explicit
start and end elapsed millis, or by bucket number alone. -/
inductive BucketReportTime where
  | byRange (startMillis endMillis : Int)
  | byNum (num : Int)
deriving DecidableEq, Repr

/-- `NanoToMillis` from stats_log_util. -/
def nanoToMillis (ns : Int) : Int := ns / 1000000

/-- Per-bucket serialisation of `CountMetricProducer::onDumpReportLocked`
(CountMetricProducer.cpp:282-308): a bucket whose length differs from
`mBucketSizeNs` is written with explicit start and end millis, otherwise
with its bucket number; the condition-true time is written only when the
metric has a condition and is sliced neither by state nor condition. -/
structure CountBucketReport where
  time : BucketReportTime
  count : Int
  conditionTrueNs : Option Int
deriving DecidableEq, Repr

/-- Builds the `CountBucketReport` for one closed bucket, mirroring
CountMetricProducer.cpp:282-308. -/
def reportOfBucket {K : Type} (s : CountState K) (b : CountBucket) : CountBucketReport :=
  { time :=
      if b.mBucketEndNs - b.mBucketStartNs ≠ s.mBucketSizeNs then
        BucketReportTime.byRange (nanoToMillis b.mBucketStartNs) (nanoToMillis b.mBucketEndNs)
      else
        BucketReportTime.byNum (getBucketNumFromEndTimeNs s b.mBucketEndNs),
    count := b.mCount,
    conditionTrueNs :=
      if s.mConditionTrackerIndex ≥ 0 ∧ s.mSlicedStateAtomsEmpty ∧ ¬ s.mConditionSliced then
        some b.mConditionTrueNs
      else
        none }

/-- The logical shape of one count metric's section of a dump report:
the `is_active` bit, the `dimension_guardrail_hit` bit (absent,
i.e. false, when no data is written), and the per-dimension-key
past-bucket records. -/
structure CountReport (K : Type) where
  isActive : Bool
  dimensionGuardrailHit : Bool
  data : List (K × List CountBucketReport)
deriving DecidableEq, Repr

/-- `CountMetricProducer::onDumpReportLocked`
(CountMetricProducer.cpp:219-318): flush (fully, when the current partial
bucket is included; otherwise only if overdue), return an empty report if
there are no past buckets, otherwise emit the guardrail bit and every
past bucket, and clear past buckets and the guardrail bit when
`erase_data` is set. -/
def onDumpReportLocked {K : Type} [DecidableEq K] (s : CountState K)
    (dumpTimeNs : Int) (includeCurrentPartialBucket eraseData : Bool) :
    CountState K × CountReport K :=
  let s1 := if includeCurrentPartialBucket then flushLocked s dumpTimeNs
            else flushIfNeededLocked s dumpTimeNs
  if s1.mPastBuckets.isEmpty then
    (s1, { isActive := s1.mIsActive, dimensionGuardrailHit := false, data := [] })
  else
    let report : CountReport K :=
      { isActive := s1.mIsActive,
        dimensionGuardrailHit := s1.mDimensionGuardrailHit,
        data := s1.mPastBuckets.map (fun kv => (kv.1, kv.2.map (reportOfBucket s1))) }
    let s2 := if eraseData then
        { s1 with mPastBuckets := [], mDimensionGuardrailHit := false }
      else s1
    (s2, report)

/-- Scheduling state of one registered pull receiver (`ReceiverInfo` in
StatsPullerManager.h, as used by `OnAlarmFired`). -/
structure ReceiverInfo where
  nextPullTimeNs : Int
  intervalNs : Int
deriving DecidableEq, Repr

/-- Per-receiver behaviour of `StatsPullerManager::OnAlarmFired`
(StatsPullerManager.cpp:219-294), with the weak reference modelled as
always promotable and `isPullNeeded()` carried as the oracle
`pullNeeded`.  A receiver that is not yet due is untouched.  A due
receiver advances `nextPullTimeNs` by `(numBucketsAhead + 1) *
intervalNs` with `numBucketsAhead = (elapsedTimeNs - nextPullTimeNs) /
intervalNs` — the same formula on both the dispatched path (lines
275-287) and the pull-not-needed path (lines 238-244) — and is pulled
exactly when `pullNeeded` holds. -/
def onAlarmReceiver (elapsedTimeNs : Int) (pullNeeded : Bool) (r : ReceiverInfo) :
    ReceiverInfo × Bool :=
  if r.nextPullTimeNs ≤ elapsedTimeNs then
    let numBucketsAhead := (elapsedTimeNs - r.nextPullTimeNs) / r.intervalNs
    ({ r with nextPullTimeNs := r.nextPullTimeNs + (numBucketsAhead + 1) * r.intervalNs },
     pullNeeded)
  else
    (r, false)

/-- `StatsPullerManager::OnAlarmFired` over the flat list of receivers,
each paired with its `isPullNeeded()` answer for this alarm: the updated
receivers, and how many pulls this alarm dispatched. -/
def onAlarmFired (elapsedTimeNs : Int) (rs : List (ReceiverInfo × Bool)) :
    List ReceiverInfo × Nat :=
  ((rs.map (fun p => (onAlarmReceiver elapsedTimeNs p.2 p.1).1)),
   (rs.filter (fun p => (onAlarmReceiver elapsedTimeNs p.2 p.1).2)).length)

/-- The three early-return checks of
`MetricProducer::onMatchedLogEventLocked` (MetricProducer.cpp:118-129),
as one predicate: the metric is active, the event is not older than
`mTimeBaseNs`, and the event passes the sample check. -/
def eventPassesPrechecks {K : Type} (s : CountState K) (e : LogEvent K) : Bool :=
  s.mIsActive && !(decide (e.elapsedTimestampNs < s.mTimeBaseNs)) && e.passesSampleCheck

/-- Whether the dimension guardrail would drop this event's key in state
`s` (false whenever the key is already present). -/
def guardrailDrops {K : Type} [DecidableEq K] (s : CountState K) (e : LogEvent K) : Bool :=
  (hitGuardRailLocked s e.key).1

/-- Whether, delivered in state `s`, this event is counted: it passes the
prechecks, its queried condition is true, and the guardrail does not drop
it. -/
def countsEvent {K : Type} [DecidableEq K] (s : CountState K) (e : LogEvent K) : Bool :=
  eventPassesPrechecks s e && conditionForEvent s e && !(guardrailDrops s e)

/-- Deliver a list of events to the producer in order. -/
def processEvents {K : Type} [DecidableEq K] (s : CountState K)
    (evs : List (LogEvent K)) : CountState K :=
  evs.foldl onMatchedLogEventLocked s

/-- The number of events of the trace that are counted towards key `k`,
each judged in the producer state at its own delivery time. -/
def countedEvents {K : Type} [DecidableEq K] (s : CountState K) :
    List (LogEvent K) → K → Int
  | [], _ => 0
  | e :: rest, k =>
      (if countsEvent s e ∧ e.key = k then 1 else 0) +
        countedEvents (onMatchedLogEventLocked s e) rest k

/-- A freshly constructed count producer with a 60 ns bucket (time base
0), active, with an unsliced condition cached `kTrue`, used as a concrete
evaluation point. -/
def sampleCountState : CountState Nat :=
  { mIsActive := true
    mTimeBaseNs := 0
    mBucketSizeNs := 60
    mCurrentBucketStartTimeNs := 0
    mCurrentBucketNum := 0
    mCondition := ConditionState.kTrue
    mConditionSliced := false
    mConditionTrackerIndex := -1
    mSlicedStateAtomsEmpty := true
    mCurrentSlicedCounter := []
    mPastBuckets := []
    mDimensionGuardrailHit := false
    mHasHitGuardrail := false
    mDimensionHardLimit := 800
    mUploadThreshold := none
    mConditionTimer := 0 }

/-- A concrete matched event at elapsed time 10 with dimension key 0. -/
def sampleEventA : LogEvent Nat :=
  { elapsedTimestampNs := 10
    key := 0
    passesSampleCheck := true
    slicedConditionState := ConditionState.kTrue }

/-- A concrete matched event at elapsed time 20 with dimension key 0. -/
def sampleEventB : LogEvent Nat :=
  { elapsedTimestampNs := 20
    key := 0
    passesSampleCheck := true
    slicedConditionState := ConditionState.kTrue }

/-- A concrete matched event at elapsed time 25 that fails the sample
check, with dimension key 0. -/
def sampleEventSampledOut : LogEvent Nat :=
  { elapsedTimestampNs := 25
    key := 0
    passesSampleCheck := false
    slicedConditionState := ConditionState.kTrue }

/-- A producer state whose counter already holds the 500 keys `1..500`
and whose hard limit is 500, used to exercise the dimension guardrail. -/
def guardrailSampleState : CountState Nat :=
  { sampleCountState with
    mDimensionHardLimit := 500
    mCurrentSlicedCounter := (List.range 500).map (fun i => (i + 1, 1)) }

/-- A producer state that has already set the reported guardrail-hit flag
and holds one count in the current bucket. -/
def guardrailHitSampleState : CountState Nat :=
  { sampleCountState with
    mDimensionGuardrailHit := true
    mHasHitGuardrail := true
    mCurrentSlicedCounter := [(0, 1)] }

/-- A producer state with one count pending in the current bucket, used
to exercise `dropDataLocked` followed by a dump. -/
def pendingCountSampleState : CountState Nat :=
  { sampleCountState with mCurrentSlicedCounter := [(0, 1)] }

/-! Helper lemmas about the activation update. -/

lemma updateActivation_state_active (now : Int) (a : Activation) :
    (updateActivationOnEvent now a).state = ActivationState.kActive ↔
      a.state = ActivationState.kActive ∧ now ≤ a.start_ns + a.ttl_ns := by
  unfold updateActivationOnEvent
  split
  · rename_i h
    constructor
    · intro hc
      exact absurd hc (by simp)
    · intro hc
      exact absurd h (by omega)
  · rename_i h
    rw [not_and_or] at h
    constructor
    · intro hc
      refine ⟨hc, ?_⟩
      rcases h with h | h
      · exact absurd hc h
      · omega
    · intro hc
      exact hc.1

/-- C3 (amended): after `evaluateActiveStateLocked(now)` the metric is
active iff the activation map is empty or some activation is `kActive`
with `now ≤ start_ns + ttl_ns`; and an activation flips to `kNotActive`
exactly when it is `kActive` and `now` strictly exceeds
`start_ns + ttl_ns`, never earlier. -/
theorem evaluateActiveState_active_iff (now : Int) (acts : List Activation) :
    ((evaluateActiveStateLocked now acts).2 = true ↔
      acts = [] ∨ ∃ a ∈ acts, a.state = ActivationState.kActive ∧
        now ≤ a.start_ns + a.ttl_ns) ∧
    (∀ a ∈ acts,
      updateActivationOnEvent now a =
        if a.state = ActivationState.kActive ∧ a.start_ns + a.ttl_ns < now then
          { a with state := ActivationState.kNotActive }
        else a) := by
  constructor
  · simp only [evaluateActiveStateLocked, List.any_map, List.any_eq_true, Function.comp_apply,
      Bool.or_eq_true, List.isEmpty_iff, decide_eq_true_eq]
    refine or_congr Iff.rfl ?_
    constructor
    · rintro ⟨a, ha, h⟩
      exact ⟨a, ha, (updateActivation_state_active now a).mp h⟩
    · rintro ⟨a, ha, h⟩
      exact ⟨a, ha, (updateActivation_state_active now a).mpr h⟩
  · intro a _
    unfold updateActivationOnEvent
    by_cases h : a.state = ActivationState.kActive ∧ a.start_ns + a.ttl_ns < now
    · obtain ⟨h1, h2⟩ := h
      rw [if_pos (show a.state = ActivationState.kActive ∧ now > a.ttl_ns + a.start_ns
            from ⟨h1, by omega⟩),
          if_pos ⟨h1, h2⟩]
    · rw [if_neg (fun hc => h ⟨hc.1, by omega⟩), if_neg h]

/-- C3 (counterexample to the claim as stated): one activation that is
`kActive` with `start_ns = 0`, `ttl_ns = 10`, evaluated at `now = 10`:
the code reports the metric active (the flip happens only when `now`
strictly exceeds `start + ttl`), yet no activation satisfies the claim's
strict bound `now < start_ns + ttl_ns`. -/
theorem evaluateActiveState_strict_bound_counterexample :
    (evaluateActiveStateLocked 10
        [{ state := ActivationState.kActive, start_ns := 0, ttl_ns := 10 }]).2 = true ∧
    ¬ (([{ state := ActivationState.kActive, start_ns := 0, ttl_ns := 10 }] :
          List Activation) = [] ∨
        ∃ a ∈ ([{ state := ActivationState.kActive, start_ns := 0, ttl_ns := 10 }] :
          List Activation),
          a.state = ActivationState.kActive ∧ (10 : Int) < a.start_ns + a.ttl_ns) := by
  decide

/-- C5 (amended): persisting a live `kActive` activation at `t` records
`remaining_ttl_ns = start_ns + ttl_ns - t` with state `ACTIVE`; loading
that record at `t + δ` (`0 ≤ δ < remaining_ttl`) computes
`start_ns = now + remaining_ttl_ns - ttl_ns`, so the restored activation
is `kActive` and expires at exactly `(t + δ) + remaining_ttl` — the load
time plus the remaining TTL, with no drift — and the metric evaluates as
active at the load time. -/
theorem activation_persist_roundtrip (a : Activation) (t δ : Int)
    (reason : DumpReportReason)
    (hA : a.state = ActivationState.kActive)
    (hlive : t ≤ a.start_ns + a.ttl_ns)
    (hδ0 : 0 ≤ δ) (hδ : δ < a.start_ns + a.ttl_ns - t) :
    writeActivationRecord t reason a =
      some { remainingTtlNanos := some (a.start_ns + a.ttl_ns - t),
             state := some ActiveEventActivationState.ACTIVE } ∧
    (loadActivation (t + δ)
        { remainingTtlNanos := some (a.start_ns + a.ttl_ns - t),
          state := some ActiveEventActivationState.ACTIVE } a).state =
      ActivationState.kActive ∧
    (loadActivation (t + δ)
        { remainingTtlNanos := some (a.start_ns + a.ttl_ns - t),
          state := some ActiveEventActivationState.ACTIVE } a).start_ns +
      (loadActivation (t + δ)
        { remainingTtlNanos := some (a.start_ns + a.ttl_ns - t),
          state := some ActiveEventActivationState.ACTIVE } a).ttl_ns =
      (t + δ) + (a.start_ns + a.ttl_ns - t) ∧
    (evaluateActiveStateLocked (t + δ)
        [loadActivation (t + δ)
          { remainingTtlNanos := some (a.start_ns + a.ttl_ns - t),
            state := some ActiveEventActivationState.ACTIVE } a]).2 = true := by
  have hwrite : writeActivationRecord t reason a =
      some { remainingTtlNanos := some (a.start_ns + a.ttl_ns - t),
             state := some ActiveEventActivationState.ACTIVE } := by
    unfold writeActivationRecord
    rw [if_neg, if_pos hA]
    intro h
    rcases h with h | ⟨_, h⟩
    · rw [hA] at h
      exact absurd h (by simp)
    · omega
  have hload : loadActivation (t + δ)
      { remainingTtlNanos := some (a.start_ns + a.ttl_ns - t),
        state := some ActiveEventActivationState.ACTIVE } a =
      { a with
        start_ns := (t + δ) + (a.start_ns + a.ttl_ns - t) - a.ttl_ns,
        state := ActivationState.kActive } := by
    unfold loadActivation
    rw [if_pos (Or.inr rfl)]
    rfl
  refine ⟨hwrite, ?_, ?_, ?_⟩
  · rw [hload]
  · rw [hload]
    dsimp only
    ring
  · rw [hload]
    simp only [evaluateActiveStateLocked, List.map_cons, List.map_nil, List.isEmpty_cons,
      Bool.false_or, List.any_cons, List.any_nil, Bool.or_false, decide_eq_true_eq]
    rw [updateActivation_state_active]
    refine ⟨rfl, ?_⟩
    dsimp only
    omega

/-- Witness for `activation_persist_roundtrip`: activation `kActive`,
`start_ns = 0`, `ttl_ns = 150`, persisted at `t = 100`, loaded at
`δ = 10` later; every hypothesis holds at this input and the restored
metric evaluates as active. -/
theorem activation_persist_roundtrip_witness :
    ({ state := ActivationState.kActive, start_ns := 0, ttl_ns := 150 } :
        Activation).state = ActivationState.kActive ∧
    (100 : Int) ≤ 0 + 150 ∧ (0 : Int) ≤ 10 ∧ (10 : Int) < 0 + 150 - 100 ∧
    (evaluateActiveStateLocked (100 + 10)
        [loadActivation (100 + 10)
          { remainingTtlNanos := some (0 + 150 - 100),
            state := some ActiveEventActivationState.ACTIVE }
          { state := ActivationState.kActive, start_ns := 0, ttl_ns := 150 }]).2 = true :=
  ⟨rfl, by decide, by decide, by decide,
    (activation_persist_roundtrip
      { state := ActivationState.kActive, start_ns := 0, ttl_ns := 150 }
      100 10 DumpReportReason.otherReason rfl (by decide) (by decide) (by decide)).2.2.2⟩

/-- C5 (counterexample to the claim as stated): activation `kActive` with
`start_ns = 0`, `ttl_ns = 150`, persisted at `t = 100` (so
`remaining_ttl = 50`), loaded at `t + δ = 110` with `δ = 10 < 50`: the
restored activation expires at `start + ttl = 160`, which differs from
the claim's `t + remaining_ttl = 150` by `10 > 1` ns. -/
theorem activation_roundtrip_drift_counterexample :
    writeActivationRecord 100 DumpReportReason.otherReason
        { state := ActivationState.kActive, start_ns := 0, ttl_ns := 150 } =
      some { remainingTtlNanos := some 50,
             state := some ActiveEventActivationState.ACTIVE } ∧
    (loadActivation 110
        { remainingTtlNanos := some 50,
          state := some ActiveEventActivationState.ACTIVE }
        { state := ActivationState.kActive, start_ns := 0, ttl_ns := 150 }).start_ns +
      (loadActivation 110
        { remainingTtlNanos := some 50,
          state := some ActiveEventActivationState.ACTIVE }
        { state := ActivationState.kActive, start_ns := 0, ttl_ns := 150 }).ttl_ns = 160 ∧
    ¬ ((160 : Int) - (100 + 50) ≤ 1) := by
  decide

/-- A due receiver's next pull time moves strictly past the alarm time;
an idle receiver keeps its (already future) next pull time. -/
lemma onAlarmReceiver_not_due_after (now : Int) (needed : Bool) (r : ReceiverInfo)
    (hint : 0 < r.intervalNs) :
    now < (onAlarmReceiver now needed r).1.nextPullTimeNs := by
  unfold onAlarmReceiver
  split
  · rename_i hdue
    have h := Int.lt_ediv_add_one_mul_self (now - r.nextPullTimeNs) hint
    dsimp only
    linarith
  · rename_i hdue
    dsimp only
    omega

/-- A receiver that is not yet due is neither modified nor pulled. -/
lemma onAlarmReceiver_skip (now : Int) (needed : Bool) (r : ReceiverInfo)
    (h : ¬ r.nextPullTimeNs ≤ now) :
    onAlarmReceiver now needed r = (r, false) := by
  unfold onAlarmReceiver
  rw [if_neg h]

/-- C6 (amended): in `OnAlarmFired`, a receiver that is due at `now`
(pulled or skipped as not needed) advances `next_pull_ns` by
`(⌊(now − next)/interval⌋ + 1) * interval` — a whole number of intervals
landing strictly past `now`; in particular when `now − next` is an exact
multiple `k` of the interval the advance is `k + 1` intervals, i.e. the
new `next_pull_ns` is `now + interval`, not `now`. -/
theorem onAlarm_advances_whole_intervals (now : Int) (needed : Bool) (r : ReceiverInfo)
    (hdue : r.nextPullTimeNs ≤ now) (hint : 0 < r.intervalNs) :
    (onAlarmReceiver now needed r).1.nextPullTimeNs =
      r.nextPullTimeNs + ((now - r.nextPullTimeNs) / r.intervalNs + 1) * r.intervalNs ∧
    now < (onAlarmReceiver now needed r).1.nextPullTimeNs ∧
    (∀ k : Int, now - r.nextPullTimeNs = k * r.intervalNs →
      (onAlarmReceiver now needed r).1.nextPullTimeNs = now + r.intervalNs) := by
  refine ⟨?_, onAlarmReceiver_not_due_after now needed r hint, ?_⟩
  · unfold onAlarmReceiver
    rw [if_pos hdue]
  · intro k hk
    unfold onAlarmReceiver
    rw [if_pos hdue]
    dsimp only
    have hq : (now - r.nextPullTimeNs) / r.intervalNs = k := by
      rw [hk]
      exact Int.mul_ediv_cancel _ (by omega)
    rw [hq]
    calc r.nextPullTimeNs + (k + 1) * r.intervalNs
        = r.nextPullTimeNs + k * r.intervalNs + r.intervalNs := by ring
      _ = r.nextPullTimeNs + (now - r.nextPullTimeNs) + r.intervalNs := by rw [hk]
      _ = now + r.intervalNs := by ring

/-- Witness for `onAlarm_advances_whole_intervals`: the spec's pull
cadence scenario — interval 60 s, `next_pull_ns = 60e9`, alarm at
`65e9`: the receiver's next pull time becomes `120e9`. -/
theorem onAlarm_advances_whole_intervals_witness :
    (60000000000 : Int) ≤ 65000000000 ∧ (0 : Int) < 60000000000 ∧
    (onAlarmReceiver 65000000000 true
        { nextPullTimeNs := 60000000000, intervalNs := 60000000000 }).1.nextPullTimeNs =
      60000000000 +
        ((65000000000 - 60000000000) / 60000000000 + 1) * 60000000000 :=
  ⟨by decide, by decide,
    (onAlarm_advances_whole_intervals 65000000000 true
      { nextPullTimeNs := 60000000000, intervalNs := 60000000000 }
      (by decide) (by decide)).1⟩

/-- C6 (counterexample to the claim as stated): receiver with
`next_pull_ns = 60`, interval `60`, alarm at `now = 120`: `now − next`
is the exact multiple `1 · interval`, the claim's
`⌈(now − next)/interval⌉ · interval` advance would give `120`, but the
code advances to `180`. -/
theorem onAlarm_exact_multiple_counterexample :
    (onAlarmReceiver 120 true
        { nextPullTimeNs := 60, intervalNs := 60 }).1.nextPullTimeNs = 180 ∧
    ¬ ((onAlarmReceiver 120 true
        { nextPullTimeNs := 60, intervalNs := 60 }).1.nextPullTimeNs =
      60 + ((120 - 60) / 60) * 60) := by
  decide

/-- C7: pull rotation is idempotent.  A first `OnAlarmFired(t)` advances
every due receiver strictly past `t`, so a second `OnAlarmFired(t)` —
whatever each receiver then answers to `isPullNeeded()` (`needed2`) —
dispatches no pull. -/
theorem onAlarmFired_idempotent (now : Int) (rs : List (ReceiverInfo × Bool))
    (needed2 : List Bool)
    (hint : ∀ p ∈ rs, 0 < p.1.intervalNs) :
    (onAlarmFired now (((onAlarmFired now rs).1).zip needed2)).2 = 0 := by
  rw [onAlarmFired, onAlarmFired]
  rw [List.length_eq_zero, List.filter_eq_nil_iff]
  intro p hp
  have hmem := List.of_mem_zip hp
  obtain ⟨q, hq, hfq⟩ := List.mem_map.mp hmem.1
  have hlt : now < p.1.nextPullTimeNs := by
    rw [← hfq]
    exact onAlarmReceiver_not_due_after now q.2 q.1 (hint q hq)
  rw [onAlarmReceiver_skip now p.2 p.1 (by omega)]
  simp

/-- Witness for `onAlarmFired_idempotent`: the spec's pull cadence
scenario — a single receiver with interval 60 s and
`next_pull_ns = 60e9`, alarm fired twice at `65e9`: the first call
dispatches exactly one pull and moves the next pull time to `120e9`, the
second call dispatches none. -/
theorem onAlarmFired_idempotent_witness :
    (onAlarmFired 65000000000
        [({ nextPullTimeNs := 60000000000, intervalNs := 60000000000 }, true)]).2 = 1 ∧
    (onAlarmFired 65000000000
        [({ nextPullTimeNs := 60000000000, intervalNs := 60000000000 }, true)]).1 =
      [{ nextPullTimeNs := 120000000000, intervalNs := 60000000000 }] ∧
    (onAlarmFired 65000000000
      (((onAlarmFired 65000000000
          [({ nextPullTimeNs := 60000000000, intervalNs := 60000000000 }, true)]).1).zip
        [true])).2 = 0 :=
  ⟨by decide, by decide,
    onAlarmFired_idempotent 65000000000
      [({ nextPullTimeNs := 60000000000, intervalNs := 60000000000 }, true)]
      [true] (by decide)⟩

/-! Helper lemmas about the association-list counter. -/

lemma lookupCount_append {K : Type} [DecidableEq K] (m₁ m₂ : List (K × Int)) (k : K) :
    lookupCount (m₁ ++ m₂) k =
      match lookupCount m₁ k with
      | some v => some v
      | none => lookupCount m₂ k := by
  induction m₁ with
  | nil => rfl
  | cons hd t ih =>
      obtain ⟨k', v⟩ := hd
      by_cases hk : k = k'
      · simp [lookupCount, hk]
      · simp only [List.cons_append, lookupCount, if_neg hk]
        exact ih

lemma lookupCount_bump_self {K : Type} [DecidableEq K] (m : List (K × Int)) (k : K) :
    lookupCount (bumpCount m k) k = some ((lookupCount m k).getD 0 + 1) := by
  induction m with
  | nil => simp [bumpCount, lookupCount]
  | cons hd t ih =>
      obtain ⟨k', v⟩ := hd
      by_cases hk : k = k'
      · simp [bumpCount, lookupCount, hk]
      · simp only [bumpCount, if_neg hk, lookupCount]
        exact ih

lemma lookupCount_bump_ne {K : Type} [DecidableEq K] (m : List (K × Int)) (k₀ k : K)
    (h : k ≠ k₀) : lookupCount (bumpCount m k₀) k = lookupCount m k := by
  induction m with
  | nil => simp [bumpCount, lookupCount, if_neg h]
  | cons hd t ih =>
      obtain ⟨k', v⟩ := hd
      by_cases hk : k₀ = k'
      · subst hk
        simp [bumpCount, lookupCount, if_neg h]
      · simp only [bumpCount, if_neg hk, lookupCount]
        by_cases hkk : k = k'
        · rw [if_pos hkk, if_pos hkk]
        · rw [if_neg hkk, if_neg hkk]
          exact ih

lemma bumpCount_length_of_isSome {K : Type} [DecidableEq K] (m : List (K × Int)) (k : K)
    (h : (lookupCount m k).isSome) : (bumpCount m k).length = m.length := by
  induction m with
  | nil => simp [lookupCount] at h
  | cons hd t ih =>
      obtain ⟨k', v⟩ := hd
      by_cases hk : k = k'
      · simp [bumpCount, hk]
      · simp only [lookupCount, if_neg hk] at h
        simp only [bumpCount, if_neg hk, List.length_cons]
        rw [ih h]

/-! Helper lemmas about flushing and the guardrail. -/

lemma flushIfNeeded_noop {K : Type} [DecidableEq K] (s : CountState K) (t : Int)
    (h : t < getCurrentBucketEndTimeNs s) : flushIfNeededLocked s t = s := by
  unfold flushIfNeededLocked
  exact if_pos h

lemma flushCurrentBucket_time_fields {K : Type} [DecidableEq K] (s : CountState K)
    (t n : Int) :
    (flushCurrentBucketLocked s t n).mTimeBaseNs = s.mTimeBaseNs ∧
    (flushCurrentBucketLocked s t n).mBucketSizeNs = s.mBucketSizeNs ∧
    (flushCurrentBucketLocked s t n).mCurrentBucketNum = s.mCurrentBucketNum :=
  ⟨rfl, rfl, rfl⟩

lemma flushIfNeeded_bucket_end_future {K : Type} [DecidableEq K] (s : CountState K)
    (t : Int) (hsize : 0 < s.mBucketSizeNs) :
    t < getCurrentBucketEndTimeNs (flushIfNeededLocked s t) := by
  by_cases h : t < getCurrentBucketEndTimeNs s
  · rw [flushIfNeeded_noop s t h]
    exact h
  · have hE : getCurrentBucketEndTimeNs (flushIfNeededLocked s t) =
        getCurrentBucketEndTimeNs s +
          (1 + (t - getCurrentBucketEndTimeNs s) / s.mBucketSizeNs) * s.mBucketSizeNs := by
      unfold flushIfNeededLocked
      rw [if_neg h]
      unfold getCurrentBucketEndTimeNs
      dsimp only [flushCurrentBucketLocked]
      ring
    rw [hE]
    have hdiv := Int.ediv_add_emod (t - getCurrentBucketEndTimeNs s) s.mBucketSizeNs
    have hmod := Int.emod_lt_of_pos (t - getCurrentBucketEndTimeNs s) hsize
    have hexp : (1 + (t - getCurrentBucketEndTimeNs s) / s.mBucketSizeNs) * s.mBucketSizeNs =
        s.mBucketSizeNs +
          s.mBucketSizeNs * ((t - getCurrentBucketEndTimeNs s) / s.mBucketSizeNs) := by
      ring
    rw [hexp]
    linarith

lemma hitGuardRail_counter_eq {K : Type} [DecidableEq K] (s : CountState K) (nk : K) :
    (hitGuardRailLocked s nk).2.mCurrentSlicedCounter = s.mCurrentSlicedCounter := by
  unfold hitGuardRailLocked
  split
  · rfl
  · split
    · split <;> rfl
    · rfl

lemma hitGuardRail_false_state {K : Type} [DecidableEq K] (s : CountState K) (nk : K)
    (h : (hitGuardRailLocked s nk).1 = false) : (hitGuardRailLocked s nk).2 = s := by
  unfold hitGuardRailLocked at h ⊢
  by_cases h1 : (lookupCount s.mCurrentSlicedCounter nk).isSome
  · rw [if_pos h1]
  · rw [if_neg h1] at h ⊢
    by_cases h2 : s.mCurrentSlicedCounter.length ≥ kDimensionKeySizeSoftLimit
    · rw [if_pos h2] at h ⊢
      by_cases h3 : s.mCurrentSlicedCounter.length + 1 > s.mDimensionHardLimit
      · rw [if_pos h3] at h
        exact absurd h (by simp)
      · rw [if_neg h3]
    · rw [if_neg h2]

lemma hitGuardRail_of_isSome {K : Type} [DecidableEq K] (s : CountState K) (nk : K)
    (h : (lookupCount s.mCurrentSlicedCounter nk).isSome) :
    hitGuardRailLocked s nk = (false, s) := by
  unfold hitGuardRailLocked
  rw [if_pos h]

lemma hitGuardRail_true_of_full {K : Type} [DecidableEq K] (s : CountState K) (nk : K)
    (hnone : lookupCount s.mCurrentSlicedCounter nk = none)
    (hsoft : kDimensionKeySizeSoftLimit ≤ s.mDimensionHardLimit)
    (hfull : s.mDimensionHardLimit ≤ s.mCurrentSlicedCounter.length) :
    hitGuardRailLocked s nk =
      (true, { s with mHasHitGuardrail := true, mDimensionGuardrailHit := true }) := by
  unfold hitGuardRailLocked
  rw [if_neg (by rw [hnone]; simp)]
  rw [if_pos (by omega), if_pos (by omega)]

/-- Effect of the variant update on the counter, within the current
bucket: the event's key gains one count exactly when the condition is
true and the guardrail does not drop it; every other lookup is
untouched. -/
lemma internal_counter_lookup {K : Type} [DecidableEq K] (s : CountState K)
    (ek : K) (c : Bool) (ts : Int) (k : K)
    (h : ts < getCurrentBucketEndTimeNs s) :
    lookupCount (onMatchedLogEventInternalLocked s ek c ts).mCurrentSlicedCounter k =
      if (c && !(hitGuardRailLocked s ek).1) ∧ ek = k then
        some ((lookupCount s.mCurrentSlicedCounter k).getD 0 + 1)
      else lookupCount s.mCurrentSlicedCounter k := by
  unfold onMatchedLogEventInternalLocked
  rw [flushIfNeeded_noop s ts h]
  by_cases hc : c = true
  · subst hc
    rw [if_neg (by simp)]
    cases hlk : lookupCount s.mCurrentSlicedCounter ek with
    | some v =>
        rw [hitGuardRail_of_isSome s ek (by rw [hlk]; rfl)]
        dsimp only
        by_cases hk : ek = k
        · subst hk
          rw [if_pos ⟨rfl, rfl⟩, lookupCount_bump_self]
        · rw [if_neg (by intro hcc; exact hk hcc.2),
            lookupCount_bump_ne _ _ _ (fun hh => hk hh.symm)]
    | none =>
        by_cases hg : (hitGuardRailLocked s ek).1 = true
        · rw [hg]
          dsimp only
          rw [if_pos hg, if_neg (by simp), hitGuardRail_counter_eq]
        · have hg' : (hitGuardRailLocked s ek).1 = false := by
            revert hg
            cases (hitGuardRailLocked s ek).1 <;> simp
          simp only [hg', Bool.false_eq_true, if_false, hitGuardRail_false_state s ek hg']
          rw [lookupCount_append]
          by_cases hk : ek = k
          · subst hk
            rw [if_pos ⟨rfl, rfl⟩, hlk]
            simp [lookupCount]
          · rw [if_neg (fun hcc => hk hcc.2)]
            cases hlk2 : lookupCount s.mCurrentSlicedCounter k with
            | some w => rfl
            | none =>
                show lookupCount [(ek, 1)] k = none
                rw [lookupCount, if_neg (fun hh : k = ek => hk hh.symm)]
                rfl
  · have hc' : c = false := by
      revert hc
      cases c <;> simp
    subst hc'
    rw [if_pos (by simp), if_neg (by simp)]

lemma hitGuardRail_time_fields {K : Type} [DecidableEq K] (s : CountState K) (nk : K) :
    getCurrentBucketEndTimeNs (hitGuardRailLocked s nk).2 = getCurrentBucketEndTimeNs s := by
  unfold hitGuardRailLocked
  split
  · rfl
  · split
    · split <;> rfl
    · rfl

/-- Within the current bucket, the variant update leaves the bucket clock
untouched. -/
lemma internal_preserves_bucket_end {K : Type} [DecidableEq K] (s : CountState K)
    (ek : K) (c : Bool) (ts : Int)
    (h : ts < getCurrentBucketEndTimeNs s) :
    getCurrentBucketEndTimeNs (onMatchedLogEventInternalLocked s ek c ts) =
      getCurrentBucketEndTimeNs s := by
  unfold onMatchedLogEventInternalLocked
  rw [flushIfNeeded_noop s ts h]
  split
  · rfl
  · dsimp only
    split
    · by_cases hg : (hitGuardRailLocked s ek).1 = true
      · simp only [hg, if_true]
        exact hitGuardRail_time_fields s ek
      · have hg' : (hitGuardRailLocked s ek).1 = false := by
          revert hg
          cases (hitGuardRailLocked s ek).1 <;> simp
        simp only [hg', Bool.false_eq_true, if_false]
        exact hitGuardRail_time_fields s ek
    · rfl

/-- Within the current bucket, processing one matched event leaves the
bucket clock untouched. -/
lemma step_preserves_bucket_end {K : Type} [DecidableEq K] (s : CountState K)
    (e : LogEvent K)
    (h : e.elapsedTimestampNs < getCurrentBucketEndTimeNs s) :
    getCurrentBucketEndTimeNs (onMatchedLogEventLocked s e) =
      getCurrentBucketEndTimeNs s := by
  unfold onMatchedLogEventLocked
  split
  · rfl
  · split
    · rfl
    · split
      · rfl
      · exact internal_preserves_bucket_end s e.key (conditionForEvent s e)
          e.elapsedTimestampNs h

/-- Effect of one matched event on the counter, within the current
bucket: the counter at `k` gains one exactly when the event is counted
towards `k`, and is untouched otherwise. -/
lemma step_counter_lookup {K : Type} [DecidableEq K] (s : CountState K)
    (e : LogEvent K) (k : K)
    (h : e.elapsedTimestampNs < getCurrentBucketEndTimeNs s) :
    lookupCount (onMatchedLogEventLocked s e).mCurrentSlicedCounter k =
      if countsEvent s e ∧ e.key = k then
        some ((lookupCount s.mCurrentSlicedCounter k).getD 0 + 1)
      else lookupCount s.mCurrentSlicedCounter k := by
  unfold onMatchedLogEventLocked
  by_cases hact : s.mIsActive = true
  · rw [if_neg (not_not_intro hact)]
    by_cases hts : e.elapsedTimestampNs < s.mTimeBaseNs
    · rw [if_pos hts]
      have hcnt : countsEvent s e = false := by
        simp [countsEvent, eventPassesPrechecks, hts]
      rw [if_neg (by simp [hcnt])]
    · rw [if_neg hts]
      by_cases hsmp : e.passesSampleCheck = true
      · rw [if_neg (not_not_intro hsmp)]
        rw [internal_counter_lookup s e.key (conditionForEvent s e)
          e.elapsedTimestampNs k h]
        have hcondeq :
            (((conditionForEvent s e && !(hitGuardRailLocked s e.key).1) = true ∧
                e.key = k) ↔ (countsEvent s e = true ∧ e.key = k)) := by
          simp [countsEvent, eventPassesPrechecks, guardrailDrops, hact, hsmp, hts]
        rw [if_congr hcondeq rfl rfl]
      · rw [if_pos hsmp]
        have hcnt : countsEvent s e = false := by
          have hs' : e.passesSampleCheck = false := by
            revert hsmp
            cases e.passesSampleCheck <;> simp
          simp [countsEvent, eventPassesPrechecks, hs']
        rw [if_neg (by simp [hcnt])]
  · rw [if_pos hact]
    have hcnt : countsEvent s e = false := by
      have ha' : s.mIsActive = false := by
        revert hact
        cases s.mIsActive <;> simp
      simp [countsEvent, eventPassesPrechecks, ha']
    rw [if_neg (by simp [hcnt])]

lemma processEvents_cons {K : Type} [DecidableEq K] (s : CountState K)
    (e : LogEvent K) (rest : List (LogEvent K)) :
    processEvents s (e :: rest) = processEvents (onMatchedLogEventLocked s e) rest := rfl

/-- General fold form of the counting invariant: within one bucket, the
counter at `k` grows by exactly the number of delivered events counted
towards `k`. -/
lemma processEvents_counter {K : Type} [DecidableEq K] (s : CountState K)
    (evs : List (LogEvent K)) (k : K)
    (h : ∀ e ∈ evs, e.elapsedTimestampNs < getCurrentBucketEndTimeNs s) :
    (lookupCount (processEvents s evs).mCurrentSlicedCounter k).getD 0 =
      (lookupCount s.mCurrentSlicedCounter k).getD 0 + countedEvents s evs k := by
  induction evs generalizing s with
  | nil => simp [processEvents, countedEvents]
  | cons e rest ih =>
      have he := h e (List.mem_cons_self e rest)
      have hrest : ∀ e' ∈ rest,
          e'.elapsedTimestampNs <
            getCurrentBucketEndTimeNs (onMatchedLogEventLocked s e) := by
        rw [step_preserves_bucket_end s e he]
        exact fun e' h' => h e' (List.mem_cons_of_mem e h')
      rw [processEvents_cons, countedEvents, ih _ hrest, step_counter_lookup s e k he]
      by_cases hc : countsEvent s e ∧ e.key = k
      · rw [if_pos hc, if_pos hc]
        simp only [Option.getD_some]
        ring
      · rw [if_neg hc, if_neg hc]
        ring

/-- C1: within one bucket (no event crosses the bucket end), starting
from an empty sliced counter, the counter at every dimension key `k`
equals the number of delivered events that were counted towards `k` —
delivered while active, at or after `time_base_ns`, passing the sample
check, with queried condition true, and not dropped by the dimension
guardrail; and any event failing one of those checks leaves the counter
at `k` unchanged. -/
theorem countMetric_counter_matches_qualifying_events {K : Type} [DecidableEq K]
    (s : CountState K) (evs : List (LogEvent K)) (k : K)
    (hbucket : ∀ e ∈ evs, e.elapsedTimestampNs < getCurrentBucketEndTimeNs s)
    (hstart : s.mCurrentSlicedCounter = []) :
    (lookupCount (processEvents s evs).mCurrentSlicedCounter k).getD 0 =
      countedEvents s evs k ∧
    (∀ (s' : CountState K) (e : LogEvent K),
      e.elapsedTimestampNs < getCurrentBucketEndTimeNs s' →
      countsEvent s' e = false →
      lookupCount (onMatchedLogEventLocked s' e).mCurrentSlicedCounter k =
        lookupCount s'.mCurrentSlicedCounter k) := by
  constructor
  · rw [processEvents_counter s evs k hbucket, hstart]
    simp [lookupCount]
  · intro s' e h hc
    rw [step_counter_lookup s' e k h, if_neg (by simp [hc])]

/-- Witness for `countMetric_counter_matches_qualifying_events`: three
events inside bucket 0 of the sample producer, of which the third fails
the sample check; the counter at key 0 ends at 2, the number of counted
events. -/
theorem countMetric_counter_matches_qualifying_events_witness :
    (∀ e ∈ [sampleEventA, sampleEventB, sampleEventSampledOut],
      e.elapsedTimestampNs < getCurrentBucketEndTimeNs sampleCountState) ∧
    sampleCountState.mCurrentSlicedCounter = [] ∧
    (lookupCount (processEvents sampleCountState
        [sampleEventA, sampleEventB, sampleEventSampledOut]).mCurrentSlicedCounter
      0).getD 0 =
      countedEvents sampleCountState [sampleEventA, sampleEventB, sampleEventSampledOut] 0 ∧
    countedEvents sampleCountState [sampleEventA, sampleEventB, sampleEventSampledOut] 0 = 2 :=
  ⟨by decide, rfl,
    (countMetric_counter_matches_qualifying_events sampleCountState
      [sampleEventA, sampleEventB, sampleEventSampledOut] 0 (by decide) rfl).1,
    by decide⟩

/-- C2: `flushIfNeededLocked(ts)` is a no-op when `ts` is before the
current bucket end; otherwise it closes the current bucket with end time
`min(ts, current_bucket_end)` and advances the bucket number by exactly
`1 + (ts - current_bucket_end) / bucket_size`; and a closed bucket is
reported with explicit `[start, end]` elapsed millis iff its length
differs from the bucket size, otherwise with its bucket number alone. -/
theorem flushIfNeeded_rotation_spec {K : Type} [DecidableEq K] (s : CountState K)
    (ts : Int) (_hsize : 0 < s.mBucketSizeNs) :
    (ts < getCurrentBucketEndTimeNs s → flushIfNeededLocked s ts = s) ∧
    (getCurrentBucketEndTimeNs s ≤ ts →
      (flushIfNeededLocked s ts).mCurrentBucketNum =
        s.mCurrentBucketNum +
          (1 + (ts - getCurrentBucketEndTimeNs s) / s.mBucketSizeNs) ∧
      (closedBucketInfo s ts).mBucketEndNs = min ts (getCurrentBucketEndTimeNs s)) ∧
    ((closedBucketInfo s ts).mBucketEndNs - (closedBucketInfo s ts).mBucketStartNs ≠
        s.mBucketSizeNs →
      (reportOfBucket s (closedBucketInfo s ts)).time =
        BucketReportTime.byRange (nanoToMillis (closedBucketInfo s ts).mBucketStartNs)
          (nanoToMillis (closedBucketInfo s ts).mBucketEndNs)) ∧
    ((closedBucketInfo s ts).mBucketEndNs - (closedBucketInfo s ts).mBucketStartNs =
        s.mBucketSizeNs →
      (reportOfBucket s (closedBucketInfo s ts)).time =
        BucketReportTime.byNum
          (getBucketNumFromEndTimeNs s (closedBucketInfo s ts).mBucketEndNs)) := by
  refine ⟨flushIfNeeded_noop s ts, ?_, ?_, ?_⟩
  · intro hend
    constructor
    · unfold flushIfNeededLocked
      rw [if_neg (not_lt.mpr hend)]
      rfl
    · unfold closedBucketInfo
      dsimp only
      rw [if_neg (not_lt.mpr hend), min_eq_right hend]
  · intro hne
    unfold reportOfBucket
    rw [if_pos hne]
  · intro heq
    unfold reportOfBucket
    rw [if_neg (not_not_intro heq)]

/-- Witness for `flushIfNeeded_rotation_spec`: the sample producer
(bucket size 60, bucket 0) flushed at `ts = 130`: no-op does not apply,
the bucket number advances by `1 + (130 - 60) / 60 = 2`, and the closed
bucket `[0, 60]` has full length, so it is reported by bucket number. -/
theorem flushIfNeeded_rotation_spec_witness :
    (0 : Int) < sampleCountState.mBucketSizeNs ∧
    (flushIfNeededLocked sampleCountState 130).mCurrentBucketNum =
      sampleCountState.mCurrentBucketNum +
        (1 + (130 - getCurrentBucketEndTimeNs sampleCountState) /
          sampleCountState.mBucketSizeNs) ∧
    (reportOfBucket sampleCountState (closedBucketInfo sampleCountState 130)).time =
      BucketReportTime.byNum
        (getBucketNumFromEndTimeNs sampleCountState
          (closedBucketInfo sampleCountState 130).mBucketEndNs) :=
  ⟨by decide,
    ((flushIfNeeded_rotation_spec sampleCountState 130 (by decide)).2.1 (by decide)).1,
    (flushIfNeeded_rotation_spec sampleCountState 130 (by decide)).2.2.2 (by decide)⟩

/-- C4: with the soft limit at or below the hard limit (the source clamps
the hard limit to `[800, 3000]`, above the soft limit 500), an event
within the current bucket whose condition is true: (a) arriving at a new
dimension key while the counter already holds at least `hard_limit` keys
is dropped — the counter, hence every existing count, is unchanged — and
sets the reported guardrail-hit flag; (b) never pushes the number of keys
beyond the hard limit; (c) for a key already present is always counted. -/
theorem guardrail_drop_and_hard_limit {K : Type} [DecidableEq K] (s : CountState K)
    (k : K) (ts : Int)
    (hsoft : kDimensionKeySizeSoftLimit ≤ s.mDimensionHardLimit)
    (hts : ts < getCurrentBucketEndTimeNs s) :
    (lookupCount s.mCurrentSlicedCounter k = none →
      s.mDimensionHardLimit ≤ s.mCurrentSlicedCounter.length →
      (onMatchedLogEventInternalLocked s k true ts).mCurrentSlicedCounter =
          s.mCurrentSlicedCounter ∧
        (onMatchedLogEventInternalLocked s k true ts).mDimensionGuardrailHit = true) ∧
    (s.mCurrentSlicedCounter.length ≤ s.mDimensionHardLimit →
      (onMatchedLogEventInternalLocked s k true ts).mCurrentSlicedCounter.length ≤
        s.mDimensionHardLimit) ∧
    (∀ v : Int, lookupCount s.mCurrentSlicedCounter k = some v →
      lookupCount (onMatchedLogEventInternalLocked s k true ts).mCurrentSlicedCounter k =
        some (v + 1)) := by
  refine ⟨?_, ?_, ?_⟩
  · intro hnone hfull
    unfold onMatchedLogEventInternalLocked
    rw [flushIfNeeded_noop s ts hts]
    rw [if_neg (by simp)]
    dsimp only
    rw [hnone]
    dsimp only
    rw [hitGuardRail_true_of_full s k hnone hsoft hfull]
    exact ⟨rfl, rfl⟩
  · intro hle
    unfold onMatchedLogEventInternalLocked
    rw [flushIfNeeded_noop s ts hts]
    rw [if_neg (by simp)]
    dsimp only
    cases hlk : lookupCount s.mCurrentSlicedCounter k with
    | some v =>
        dsimp only
        rw [bumpCount_length_of_isSome s.mCurrentSlicedCounter k (by rw [hlk]; rfl)]
        exact hle
    | none =>
        dsimp only
        by_cases hg : (hitGuardRailLocked s k).1 = true
        · simp only [hg, if_true]
          rw [hitGuardRail_counter_eq]
          exact hle
        · have hg' : (hitGuardRailLocked s k).1 = false := by
            revert hg
            cases (hitGuardRailLocked s k).1 <;> simp
          simp only [hg', Bool.false_eq_true, if_false,
            hitGuardRail_false_state s k hg']
          rw [List.length_append]
          have hnd : ¬ (kDimensionKeySizeSoftLimit ≤ s.mCurrentSlicedCounter.length ∧
              s.mDimensionHardLimit < s.mCurrentSlicedCounter.length + 1) := by
            intro hc
            have : hitGuardRailLocked s k =
                (true, { s with mHasHitGuardrail := true,
                                mDimensionGuardrailHit := true }) := by
              unfold hitGuardRailLocked
              rw [if_neg (by rw [hlk]; simp), if_pos hc.1, if_pos hc.2]
            rw [this] at hg'
            exact absurd hg' (by simp)
          simp only [List.length_singleton]
          omega
  · intro v hv
    unfold onMatchedLogEventInternalLocked
    rw [flushIfNeeded_noop s ts hts]
    rw [if_neg (by simp)]
    dsimp only
    rw [hv]
    dsimp only
    rw [lookupCount_bump_self, hv]
    rfl

set_option maxRecDepth 4000 in
/-- Witness for `guardrail_drop_and_hard_limit`: the guardrail sample
state holds 500 keys with hard limit 500; delivering key 0 (a new key)
at time 10 leaves the counter unchanged and sets the guardrail-hit
flag. -/
theorem guardrail_drop_and_hard_limit_witness :
    kDimensionKeySizeSoftLimit ≤ guardrailSampleState.mDimensionHardLimit ∧
    (10 : Int) < getCurrentBucketEndTimeNs guardrailSampleState ∧
    ((onMatchedLogEventInternalLocked guardrailSampleState 0 true 10).mCurrentSlicedCounter =
        guardrailSampleState.mCurrentSlicedCounter ∧
      (onMatchedLogEventInternalLocked guardrailSampleState 0 true
        10).mDimensionGuardrailHit = true) :=
  ⟨by decide, by decide,
    (guardrail_drop_and_hard_limit guardrailSampleState 0 10 (by decide) (by decide)).1
      (by decide) (by decide)⟩

/-- C8 (amended): closing a bucket resets the once-per-bucket
`mHasHitGuardrail` flag (used to log the guardrail at most once per
bucket) but leaves the reported `mDimensionGuardrailHit` flag untouched;
the reported flag is cleared only by a dump with `erase_data` that
actually emitted data. -/
theorem flush_resets_logging_flag_only {K : Type} [DecidableEq K] (s : CountState K)
    (t next : Int) :
    (flushCurrentBucketLocked s t next).mHasHitGuardrail = false ∧
    (flushCurrentBucketLocked s t next).mDimensionGuardrailHit =
      s.mDimensionGuardrailHit ∧
    (∀ (d : Int) (inc : Bool),
      ((if inc then flushLocked s d else flushIfNeededLocked s d).mPastBuckets.isEmpty =
          false) →
      (onDumpReportLocked s d inc true).1.mDimensionGuardrailHit = false) := by
  refine ⟨rfl, rfl, ?_⟩
  intro d inc hne
  unfold onDumpReportLocked
  rw [if_neg (by rw [hne]; simp)]
  dsimp only
  rw [if_pos rfl]

/-- C8 (counterexample to the claim as stated): a producer whose reported
guardrail flag is set closes its bucket at `ts = 60`; no hard-limit hit
occurs in the new bucket, yet a dump at `ts = 70` still reports
`dimension_guardrail_hit = true` — the reported flag is not reset by
bucket rotation. -/
theorem guardrail_flag_survives_rotation_counterexample :
    (flushIfNeededLocked guardrailHitSampleState 60).mDimensionGuardrailHit = true ∧
    ((onDumpReportLocked (flushIfNeededLocked guardrailHitSampleState 60) 70 false
        false).2).dimensionGuardrailHit = true := by
  decide

/-- C9 (amended): `dropDataLocked(t)` immediately followed by
`onDumpReportLocked(t, include_partial := false, ...)` emits no
past-bucket entries, for every `erase_data`; the counterexample below
shows that with `include_partial := true` the dump may emit the current
partial bucket that the dump itself closes at `t`. -/
theorem dropData_then_dump_no_past_buckets {K : Type} [DecidableEq K]
    (s : CountState K) (t : Int) (eraseData : Bool)
    (hsize : 0 < s.mBucketSizeNs) :
    (onDumpReportLocked (dropDataLocked s t) t false eraseData).2.data = [] := by
  have hend : t < getCurrentBucketEndTimeNs (dropDataLocked s t) :=
    flushIfNeeded_bucket_end_future s t hsize
  unfold onDumpReportLocked
  dsimp only
  rw [flushIfNeeded_noop (dropDataLocked s t) t hend]
  simp only [Bool.false_eq_true, if_false]
  rw [if_pos (show (dropDataLocked s t).mPastBuckets.isEmpty = true from rfl)]

/-- Witness for `dropData_then_dump_no_past_buckets`: the pending-count
sample producer dropped and dumped at `t = 30` (without the current
partial bucket) emits no data. -/
theorem dropData_then_dump_no_past_buckets_witness :
    (0 : Int) < pendingCountSampleState.mBucketSizeNs ∧
    (onDumpReportLocked (dropDataLocked pendingCountSampleState 30) 30 false
      false).2.data = [] :=
  ⟨by decide,
    dropData_then_dump_no_past_buckets pendingCountSampleState 30 false (by decide)⟩

/-- C9 (counterexample to the claim as stated): the pending-count sample
producer (one count in the current bucket) after `dropDataLocked(30)`:
a dump at the same time with `include_partial := true` closes the
current bucket at 30 and emits it, so the report's data is nonempty. -/
theorem dropData_then_dump_include_current_counterexample :
    (onDumpReportLocked (dropDataLocked pendingCountSampleState 30) 30 true
      false).2.data ≠ [] := by
  decide

lemma countState_update_condition_self {K : Type} (x : CountState K) :
    { x with mCondition := x.mCondition } = x := rfl

lemma flushIfNeeded_mCondition {K : Type} [DecidableEq K] (s : CountState K) (t : Int) :
    (flushIfNeededLocked s t).mCondition = s.mCondition := by
  unfold flushIfNeededLocked
  dsimp only
  split <;> rfl

/-- Setting the cached condition commutes with bucket rotation: the flush
never reads nor writes `mCondition`. -/
lemma flushIfNeeded_set_condition {K : Type} [DecidableEq K] (s : CountState K)
    (c : ConditionState) (t : Int) :
    flushIfNeededLocked { s with mCondition := c } t =
      { flushIfNeededLocked s t with mCondition := c } := by
  unfold flushIfNeededLocked flushCurrentBucketLocked closedBucketInfo
    getCurrentBucketEndTimeNs
  dsimp only
  split <;> rfl

/-- A producer with an unsliced condition not cached `kTrue` still
rotates buckets on a matched event that passes the prechecks, but
changes nothing else. -/
lemma unsliced_false_condition_only_flushes {K : Type} [DecidableEq K]
    (s : CountState K) (e : LogEvent K)
    (hsliced : s.mConditionSliced = false)
    (hcond : s.mCondition ≠ ConditionState.kTrue)
    (hact : s.mIsActive = true)
    (hts : ¬ e.elapsedTimestampNs < s.mTimeBaseNs)
    (hsample : e.passesSampleCheck = true) :
    onMatchedLogEventLocked s e = flushIfNeededLocked s e.elapsedTimestampNs := by
  unfold onMatchedLogEventLocked
  rw [if_neg (not_not_intro hact), if_neg hts, if_neg (not_not_intro hsample)]
  have hcf : conditionForEvent s e = false := by
    unfold conditionForEvent
    rw [if_neg (by rw [hsliced]; simp)]
    simp [hcond]
  unfold onMatchedLogEventInternalLocked
  rw [hcf]
  rw [if_pos (by simp)]

/-- C10: for a metric whose condition is not sliced, an event that passes
the active, time-base and sampling checks while the cached condition is
`kUnknown` behaves exactly as with condition `kFalse`: the event still
rotates buckets via `flushIfNeededLocked`, and no counter is created or
incremented for any key. -/
theorem unknown_condition_treated_as_false {K : Type} [DecidableEq K]
    (s : CountState K) (e : LogEvent K)
    (hsliced : s.mConditionSliced = false)
    (hcond : s.mCondition = ConditionState.kUnknown)
    (hact : s.mIsActive = true)
    (hts : ¬ e.elapsedTimestampNs < s.mTimeBaseNs)
    (hsample : e.passesSampleCheck = true) :
    onMatchedLogEventLocked s e = flushIfNeededLocked s e.elapsedTimestampNs ∧
    onMatchedLogEventLocked s e =
      { onMatchedLogEventLocked { s with mCondition := ConditionState.kFalse } e with
        mCondition := s.mCondition } := by
  have h1 : onMatchedLogEventLocked s e = flushIfNeededLocked s e.elapsedTimestampNs :=
    unsliced_false_condition_only_flushes s e hsliced (by rw [hcond]; simp) hact hts
      hsample
  refine ⟨h1, ?_⟩
  have h2 : onMatchedLogEventLocked { s with mCondition := ConditionState.kFalse } e =
      flushIfNeededLocked { s with mCondition := ConditionState.kFalse }
        e.elapsedTimestampNs :=
    unsliced_false_condition_only_flushes _ e hsliced (by simp) hact hts hsample
  have h4 := flushIfNeeded_set_condition s ConditionState.kFalse e.elapsedTimestampNs
  have h3 : (flushIfNeededLocked s e.elapsedTimestampNs).mCondition = s.mCondition :=
    flushIfNeeded_mCondition s e.elapsedTimestampNs
  rw [h1, h2, h4, ← h3]

/-- Witness for `unknown_condition_treated_as_false`: the sample producer
with cached condition `kUnknown` receiving event A: the result is the
flush alone, and the counter stays empty. -/
theorem unknown_condition_treated_as_false_witness :
    ({ sampleCountState with
        mCondition := ConditionState.kUnknown } : CountState Nat).mConditionSliced =
      false ∧
    onMatchedLogEventLocked
        { sampleCountState with mCondition := ConditionState.kUnknown } sampleEventA =
      flushIfNeededLocked { sampleCountState with mCondition := ConditionState.kUnknown }
        sampleEventA.elapsedTimestampNs :=
  ⟨rfl,
    (unknown_condition_treated_as_false
      { sampleCountState with mCondition := ConditionState.kUnknown } sampleEventA
      rfl rfl rfl (by decide) rfl).1⟩

end Statsd
